import Mathlib

/-! Neutrona Wand sound-effect identifiers.

A development over `source/NeutronaWand/MusicSounds.h`: the enumeration
`sound_fx` of SD-card sound files and the constant `i_last_effects_track`
that marks the last sound effect.
-/

namespace NeutronaWand

/-- The enumerators of `enum sound_fx`, one constructor per enumerator, in the
order of the header. -/
inductive sound_fx where
  | S_EMPTY
  | S_BOOTUP
  | S_SHUTDOWN
  | S_IDLE_LOOP
  | S_IDLE_LOOP_GUN
  | S_FIRE_START
  | S_FIRE_START_SPARK
  | S_FIRE_LOOP
  | S_FIRE_LOOP_GUN
  | S_FIRE_LOOP_IMPACT
  | S_FIRING_END
  | S_FIRING_END_GUN
  | S_AFTERLIFE_BEEP_WAND
  | S_AFTERLIFE_GUN_RAMP_LOW
  | S_AFTERLIFE_GUN_RAMP_HIGH
  | S_AFTERLIFE_PACK_STARTUP
  | S_AFTERLIFE_PACK_IDLE_LOOP
  | S_WAND_SHUTDOWN
  | S_AFTERLIFE_BEEP_WAND_S1
  | S_AFTERLIFE_BEEP_WAND_S2
  | S_AFTERLIFE_BEEP_WAND_S3
  | S_AFTERLIFE_BEEP_WAND_S4
  | S_AFTERLIFE_BEEP_WAND_S5
  | S_AFTERLIFE_GUN_RAMP_1
  | S_AFTERLIFE_GUN_LOOP_1
  | S_AFTERLIFE_GUN_RAMP_2
  | S_AFTERLIFE_GUN_LOOP_2
  | S_AFTERLIFE_GUN_RAMP_DOWN_2
  | S_AFTERLIFE_GUN_RAMP_DOWN_1
  | S_IDLE_LOOP_GUN_2
  | S_IDLE_LOOP_GUN_3
  | S_IDLE_LOOP_GUN_4
  | S_IDLE_LOOP_GUN_5
  | S_IDLE_LOOP_GUN_1
  | S_PACK_BEEPING
  | S_PACK_SHUTDOWN
  | S_PACK_SHUTDOWN_AFTERLIFE
  | S_GB2_PACK_START
  | S_GB2_PACK_LOOP
  | S_GB2_PACK_OFF
  | S_CLICK
  | S_VENT
  | S_VENT_SLOW
  | S_VENT_FAST
  | S_VENT_DRY
  | S_VENT_BEEP
  | S_VENT_BEEP_3
  | S_VENT_BEEP_7
  | S_PACK_SLIME_OPEN
  | S_PACK_SLIME_CLOSE
  | S_PACK_SLIME_TANK_LOOP
  | S_SLIME_START
  | S_SLIME_LOOP
  | S_SLIME_END
  | S_STASIS_START
  | S_STASIS_LOOP
  | S_STASIS_END
  | S_MESON_START
  | S_MESON_LOOP
  | S_MESON_END
  | S_BEEP_8
  | S_VENT_SMOKE
  | S_MODE_SWITCH
  | S_BEEPS
  | S_BEEPS_ALT
  | S_SPARKS_LONG
  | S_SPARKS_LOOP
  | S_BEEPS_LOW
  | S_BEEPS_BARGRAPH
  | S_MESON_OPEN
  | S_STASIS_OPEN
  | S_FIRING_END_MID
  | S_FIRING_LOOP_GB1
  | S_CROSS_STREAMS_END
  | S_CROSS_STREAMS_START
  | S_PACK_RIBBON_ALARM_1
  | S_PACK_RIBBON_ALARM_2
  | S_VOICE_1984
  | S_VOICE_1989
  | S_VOICE_2021
  | S_VOICE_VIBRATION_ENABLED
  | S_VOICE_VIBRATION_DISABLED
  | S_VOICE_VIBRATION_FIRING_ENABLED
  | S_VOICE_VIBRATION_FIRING_DISABLED
  | S_VOICE_SMOKE_ENABLED
  | S_VOICE_SMOKE_DISABLED
  | S_VOICE_CYCLOTRON_CLOCKWISE
  | S_VOICE_CYCLOTRON_COUNTER_CLOCKWISE
  | S_VOICE_CROSS_THE_STREAMS
  | S_VOICE_VIDEO_GAME_MODES
  | S_VOICE_SINGLE_LED
  | S_VOICE_THREE_LED
  | S_VOICE_OVERHEAT_ENABLED
  | S_VOICE_OVERHEAT_DISABLED
  | S_VOICE_AFTERLIFE
  deriving DecidableEq, Repr

/-- The enumerator list of `enum sound_fx` as written between the braces of the
header, first to last. No enumerator of the header has an initializer. -/
def sound_fx.declarationList : List sound_fx :=
  [
    sound_fx.S_EMPTY,
    sound_fx.S_BOOTUP,
    sound_fx.S_SHUTDOWN,
    sound_fx.S_IDLE_LOOP,
    sound_fx.S_IDLE_LOOP_GUN,
    sound_fx.S_FIRE_START,
    sound_fx.S_FIRE_START_SPARK,
    sound_fx.S_FIRE_LOOP,
    sound_fx.S_FIRE_LOOP_GUN,
    sound_fx.S_FIRE_LOOP_IMPACT,
    sound_fx.S_FIRING_END,
    sound_fx.S_FIRING_END_GUN,
    sound_fx.S_AFTERLIFE_BEEP_WAND,
    sound_fx.S_AFTERLIFE_GUN_RAMP_LOW,
    sound_fx.S_AFTERLIFE_GUN_RAMP_HIGH,
    sound_fx.S_AFTERLIFE_PACK_STARTUP,
    sound_fx.S_AFTERLIFE_PACK_IDLE_LOOP,
    sound_fx.S_WAND_SHUTDOWN,
    sound_fx.S_AFTERLIFE_BEEP_WAND_S1,
    sound_fx.S_AFTERLIFE_BEEP_WAND_S2,
    sound_fx.S_AFTERLIFE_BEEP_WAND_S3,
    sound_fx.S_AFTERLIFE_BEEP_WAND_S4,
    sound_fx.S_AFTERLIFE_BEEP_WAND_S5,
    sound_fx.S_AFTERLIFE_GUN_RAMP_1,
    sound_fx.S_AFTERLIFE_GUN_LOOP_1,
    sound_fx.S_AFTERLIFE_GUN_RAMP_2,
    sound_fx.S_AFTERLIFE_GUN_LOOP_2,
    sound_fx.S_AFTERLIFE_GUN_RAMP_DOWN_2,
    sound_fx.S_AFTERLIFE_GUN_RAMP_DOWN_1,
    sound_fx.S_IDLE_LOOP_GUN_2,
    sound_fx.S_IDLE_LOOP_GUN_3,
    sound_fx.S_IDLE_LOOP_GUN_4,
    sound_fx.S_IDLE_LOOP_GUN_5,
    sound_fx.S_IDLE_LOOP_GUN_1,
    sound_fx.S_PACK_BEEPING,
    sound_fx.S_PACK_SHUTDOWN,
    sound_fx.S_PACK_SHUTDOWN_AFTERLIFE,
    sound_fx.S_GB2_PACK_START,
    sound_fx.S_GB2_PACK_LOOP,
    sound_fx.S_GB2_PACK_OFF,
    sound_fx.S_CLICK,
    sound_fx.S_VENT,
    sound_fx.S_VENT_SLOW,
    sound_fx.S_VENT_FAST,
    sound_fx.S_VENT_DRY,
    sound_fx.S_VENT_BEEP,
    sound_fx.S_VENT_BEEP_3,
    sound_fx.S_VENT_BEEP_7,
    sound_fx.S_PACK_SLIME_OPEN,
    sound_fx.S_PACK_SLIME_CLOSE,
    sound_fx.S_PACK_SLIME_TANK_LOOP,
    sound_fx.S_SLIME_START,
    sound_fx.S_SLIME_LOOP,
    sound_fx.S_SLIME_END,
    sound_fx.S_STASIS_START,
    sound_fx.S_STASIS_LOOP,
    sound_fx.S_STASIS_END,
    sound_fx.S_MESON_START,
    sound_fx.S_MESON_LOOP,
    sound_fx.S_MESON_END,
    sound_fx.S_BEEP_8,
    sound_fx.S_VENT_SMOKE,
    sound_fx.S_MODE_SWITCH,
    sound_fx.S_BEEPS,
    sound_fx.S_BEEPS_ALT,
    sound_fx.S_SPARKS_LONG,
    sound_fx.S_SPARKS_LOOP,
    sound_fx.S_BEEPS_LOW,
    sound_fx.S_BEEPS_BARGRAPH,
    sound_fx.S_MESON_OPEN,
    sound_fx.S_STASIS_OPEN,
    sound_fx.S_FIRING_END_MID,
    sound_fx.S_FIRING_LOOP_GB1,
    sound_fx.S_CROSS_STREAMS_END,
    sound_fx.S_CROSS_STREAMS_START,
    sound_fx.S_PACK_RIBBON_ALARM_1,
    sound_fx.S_PACK_RIBBON_ALARM_2,
    sound_fx.S_VOICE_1984,
    sound_fx.S_VOICE_1989,
    sound_fx.S_VOICE_2021,
    sound_fx.S_VOICE_VIBRATION_ENABLED,
    sound_fx.S_VOICE_VIBRATION_DISABLED,
    sound_fx.S_VOICE_VIBRATION_FIRING_ENABLED,
    sound_fx.S_VOICE_VIBRATION_FIRING_DISABLED,
    sound_fx.S_VOICE_SMOKE_ENABLED,
    sound_fx.S_VOICE_SMOKE_DISABLED,
    sound_fx.S_VOICE_CYCLOTRON_CLOCKWISE,
    sound_fx.S_VOICE_CYCLOTRON_COUNTER_CLOCKWISE,
    sound_fx.S_VOICE_CROSS_THE_STREAMS,
    sound_fx.S_VOICE_VIDEO_GAME_MODES,
    sound_fx.S_VOICE_SINGLE_LED,
    sound_fx.S_VOICE_THREE_LED,
    sound_fx.S_VOICE_OVERHEAT_ENABLED,
    sound_fx.S_VOICE_OVERHEAT_DISABLED,
    sound_fx.S_VOICE_AFTERLIFE
  ]

/-- The C++ rule for an enumerator list without initializers: the first
enumerator gets the value `next` (zero at the start of the list) and each later
one the value of its predecessor increased by one. -/
def enumValues {α : Type} : List α → Int → List (α × Int)
  | [], _ => []
  | e :: rest, next => (e, next) :: enumValues rest (next + 1)

/-- The enumerator values of `sound_fx`, as the compiler assigns them. -/
def sound_fx.valueTable : List (sound_fx × Int) :=
  enumValues sound_fx.declarationList 0

/-- The integer value of an enumerator: the implicit conversion of a `sound_fx`
to `int`. -/
def sound_fx.ordinal (x : sound_fx) : Int :=
  (sound_fx.valueTable.lookup x).getD 0

/-- The header's `const int i_last_effects_track = S_VOICE_AFTERLIFE;`. -/
def i_last_effects_track : Int :=
  sound_fx.ordinal sound_fx.S_VOICE_AFTERLIFE

/-- The zero-based position of an enumerator in the declaration list. -/
def sound_fx.declIndex (x : sound_fx) : Nat :=
  sound_fx.declarationList.indexOf x

/-- The relation "a is declared before b" on the enumerator list. -/
def sound_fx.declaredBefore (a b : sound_fx) : Prop :=
  sound_fx.declIndex a < sound_fx.declIndex b

instance (a b : sound_fx) : Decidable (sound_fx.declaredBefore a b) := by
  unfold sound_fx.declaredBefore; infer_instance

/-- The number of enumerators of `sound_fx`. -/
def sound_fx.count : Nat :=
  sound_fx.declarationList.length

/-- Modelled from the spec: the decoding of an integer ordinal back to an
identifier ("encoding an EffectId to its ordinal and decoding back"), which the
header does not contain. It searches the enumerator list for the identifier
whose ordinal is `n`. -/
def decode (n : Int) : Option sound_fx :=
  sound_fx.declarationList.find? (fun x => decide (sound_fx.ordinal x = n))

/-- Modelled from the spec: the error taxonomy of the effect sequencer, which
the header does not contain. -/
inductive SequencerError where
  | InvalidIdentifier
  | OutOfRange
  | EngineUnavailable
  deriving DecidableEq, Repr

/-- Modelled from the spec: the playback intents of `play(id, mode)`, which the
header does not contain. -/
inductive PlayMode where
  | ONE_SHOT
  | LOOP_START
  | LOOP_STOP
  | RAMP_THEN_LOOP
  deriving DecidableEq, Repr

/-- Modelled from the spec: the defensive identifier check of the sequencer,
which the header does not contain ("Fails with InvalidIdentifier if id is
outside the closed set"). -/
def validate (n : Int) : Except SequencerError sound_fx :=
  match decode n with
  | some x => Except.ok x
  | none => Except.error SequencerError.InvalidIdentifier

/-- Modelled from the spec: the identifier resolution of `play(id, mode)`, which
the header does not contain. A request whose identifier is outside the closed
set fails with `InvalidIdentifier`; otherwise the request resolves to the
identifier and the intent handed on to the audio engine. The channel state
machine and the engine calls are not part of this model. -/
def play (n : Int) (mode : PlayMode) : Except SequencerError (sound_fx × PlayMode) :=
  match validate n with
  | Except.ok x => Except.ok (x, mode)
  | Except.error e => Except.error e

/-- Modelled from the spec: the loop of `applyGainToAll(level)`, which the
header does not contain: it "iterates ordinals 0..lastEffectsTrack inclusive,
applying gain to every defined identifier; skips the EMPTY sentinel". The
result lists the gain adjustments made, in the order the loop makes them, each
as the ordinal adjusted and the level applied. -/
def applyGainToAll (level : Int) : List (Int × Int) :=
  ((List.range (i_last_effects_track.toNat + 1)).map Int.ofNat).filterMap
    (fun n =>
      match decode n with
      | some x => if x = sound_fx.S_EMPTY then none else some (n, level)
      | none => none)

/-- The ascending sequence of ordinals `1, 2, ..., i_last_effects_track`. -/
def effectOrdinals : List Int :=
  (List.range' 1 i_last_effects_track.toNat).map Int.ofNat

/-! ## The enumerator rule -/

theorem enumValues_lookup {α : Type} [DecidableEq α] (l : List α) :
    ∀ (next : Int) (x : α), x ∈ l →
      (enumValues l next).lookup x = some (next + (l.indexOf x : Int)) := by
  induction l with
  | nil => intro next x hx; simp at hx
  | cons e rest ih =>
    intro next x hx
    by_cases hxe : x = e
    · subst hxe
      simp [enumValues]
    · have hmem : x ∈ rest := by
        rcases List.mem_cons.mp hx with h | h
        · exact absurd h hxe
        · exact h
      have hne : e ≠ x := fun h => hxe h.symm
      have hbeq : (x == e) = false := by simpa using hxe
      rw [enumValues, List.lookup_cons, hbeq, ih (next + 1) x hmem,
        List.indexOf_cons_ne _ hne]
      simp only [Nat.succ_eq_add_one, Nat.cast_add, Nat.cast_one]
      congr 1
      omega

theorem sound_fx.mem_declarationList (x : sound_fx) :
    x ∈ sound_fx.declarationList := by
  cases x <;> simp [sound_fx.declarationList]

theorem sound_fx.nodup_declarationList : sound_fx.declarationList.Nodup := by
  decide

theorem sound_fx.length_declarationList : sound_fx.declarationList.length = 95 := by
  rfl

theorem sound_fx.ordinal_eq_declIndex (x : sound_fx) :
    sound_fx.ordinal x = (sound_fx.declIndex x : Int) := by
  unfold sound_fx.ordinal sound_fx.valueTable sound_fx.declIndex
  rw [enumValues_lookup _ 0 x (sound_fx.mem_declarationList x)]
  simp

theorem sound_fx.declIndex_lt (x : sound_fx) : sound_fx.declIndex x < 95 := by
  have h := List.indexOf_lt_length.mpr (sound_fx.mem_declarationList x)
  rw [sound_fx.length_declarationList] at h
  exact h

theorem sound_fx.declIndex_inj {a b : sound_fx}
    (h : sound_fx.declIndex a = sound_fx.declIndex b) : a = b :=
  (List.indexOf_inj (sound_fx.mem_declarationList a) (sound_fx.mem_declarationList b)).mp h

theorem sound_fx.ordinal_inj {a b : sound_fx}
    (h : sound_fx.ordinal a = sound_fx.ordinal b) : a = b := by
  rw [sound_fx.ordinal_eq_declIndex, sound_fx.ordinal_eq_declIndex] at h
  exact sound_fx.declIndex_inj (by exact_mod_cast h)

theorem i_last_effects_track_eq : i_last_effects_track = 94 := by
  unfold i_last_effects_track
  rw [sound_fx.ordinal_eq_declIndex]
  rfl

theorem sound_fx.ordinal_nonneg (x : sound_fx) : 0 ≤ sound_fx.ordinal x := by
  rw [sound_fx.ordinal_eq_declIndex]
  exact Int.ofNat_nonneg _

theorem sound_fx.ordinal_le_marker (x : sound_fx) :
    sound_fx.ordinal x ≤ i_last_effects_track := by
  rw [sound_fx.ordinal_eq_declIndex, i_last_effects_track_eq]
  have h := sound_fx.declIndex_lt x
  omega

theorem sound_fx.exists_ordinal_eq (n : Int) (h0 : 0 ≤ n)
    (h1 : n ≤ i_last_effects_track) : ∃ x : sound_fx, sound_fx.ordinal x = n := by
  rw [i_last_effects_track_eq] at h1
  have hlt : n.toNat < sound_fx.declarationList.length := by
    rw [sound_fx.length_declarationList]; omega
  refine ⟨sound_fx.declarationList[n.toNat], ?_⟩
  rw [sound_fx.ordinal_eq_declIndex]
  unfold sound_fx.declIndex
  rw [List.indexOf_getElem sound_fx.nodup_declarationList n.toNat hlt]
  omega

theorem decode_eq_some_iff (n : Int) (x : sound_fx) :
    decode n = some x ↔ sound_fx.ordinal x = n := by
  unfold decode
  constructor
  · intro h
    have := List.find?_some h
    simpa using this
  · intro h
    cases hf : sound_fx.declarationList.find? (fun y => decide (sound_fx.ordinal y = n)) with
    | none =>
      have := List.find?_eq_none.mp hf x (sound_fx.mem_declarationList x)
      simp [h] at this
    | some y =>
      have hy := List.find?_some hf
      have hy2 : sound_fx.ordinal y = n := by simpa using hy
      rw [sound_fx.ordinal_inj (hy2.trans h.symm)]

theorem decode_eq_none_iff (n : Int) :
    decode n = none ↔ ∀ x : sound_fx, sound_fx.ordinal x ≠ n := by
  constructor
  · intro h x hx
    rw [(decode_eq_some_iff n x).mpr hx] at h
    exact Option.noConfusion h
  · intro h
    cases hd : decode n with
    | none => rfl
    | some y => exact absurd ((decode_eq_some_iff n y).mp hd) (h y)

theorem decode_out_of_range (n : Int) (h : n < 0 ∨ i_last_effects_track < n) :
    decode n = none := by
  rw [decode_eq_none_iff]
  intro x hx
  have h0 := sound_fx.ordinal_nonneg x
  have h1 := sound_fx.ordinal_le_marker x
  omega

theorem marker_toNat : i_last_effects_track.toNat = 94 := by
  rw [i_last_effects_track_eq]
  rfl

theorem mem_effectOrdinals (n : Int) :
    n ∈ effectOrdinals ↔ 1 ≤ n ∧ n ≤ i_last_effects_track := by
  unfold effectOrdinals
  rw [marker_toNat, i_last_effects_track_eq, List.mem_map]
  constructor
  · rintro ⟨k, hk, rfl⟩
    have hk2 := List.mem_range'_1.mp hk
    simp only [Int.ofNat_eq_coe]
    omega
  · rintro ⟨h1, h2⟩
    refine ⟨n.toNat, List.mem_range'_1.mpr ?_, ?_⟩
    · omega
    · simp only [Int.ofNat_eq_coe]
      omega

theorem effectOrdinals_pairwise : effectOrdinals.Pairwise (fun a b => a < b) := by
  unfold effectOrdinals
  refine List.Pairwise.map Int.ofNat ?_ (List.pairwise_lt_range' 1 _)
  intro a b hab
  simp only [Int.ofNat_eq_coe]
  omega

theorem effectOrdinals_nodup : effectOrdinals.Nodup :=
  effectOrdinals_pairwise.imp (fun h => ne_of_lt h)

theorem gainStep_empty (level : Int) :
    (match decode (Int.ofNat 0) with
      | some x => if x = sound_fx.S_EMPTY then none else some (Int.ofNat 0, level)
      | none => none) = none := by
  have h : decode (Int.ofNat 0) = some sound_fx.S_EMPTY :=
    (decode_eq_some_iff _ _).mpr (by rw [sound_fx.ordinal_eq_declIndex]; rfl)
  rw [h]
  simp

theorem gainStep_effect (level : Int) (n : Int) (h1 : 1 ≤ n)
    (h2 : n ≤ i_last_effects_track) :
    (match decode n with
      | some x => if x = sound_fx.S_EMPTY then none else some (n, level)
      | none => none) = some (n, level) := by
  obtain ⟨x, hx⟩ := sound_fx.exists_ordinal_eq n (by omega) h2
  have hne : x ≠ sound_fx.S_EMPTY := by
    intro h
    rw [h, sound_fx.ordinal_eq_declIndex] at hx
    have h0 : ((sound_fx.declIndex sound_fx.S_EMPTY : Nat) : Int) = 0 := by rfl
    omega
  rw [(decode_eq_some_iff n x).mpr hx]
  simp [hne]

theorem applyGainToAll_eq (level : Int) :
    applyGainToAll level = effectOrdinals.map (fun n => (n, level)) := by
  unfold applyGainToAll
  rw [marker_toNat, List.range_eq_range', List.range'_succ, List.map_cons,
    List.filterMap_cons, gainStep_empty level]
  have hm : (List.range' (0 + 1) 94).map Int.ofNat = effectOrdinals := by
    unfold effectOrdinals
    rw [marker_toNat]
  rw [hm, ← List.filterMap_eq_map]
  apply List.filterMap_congr
  intro n hn
  have h := (mem_effectOrdinals n).mp hn
  exact gainStep_effect level n h.1 h.2

/-! ## The claims -/

/-- Claim C1: the marker `i_last_effects_track` is the greatest ordinal of
`sound_fx`: no identifier has an ordinal above it, and the bound is attained by
`S_VOICE_AFTERLIFE`, which is the last identifier of the declaration list. -/
theorem marker_is_greatest_ordinal :
    (∀ x : sound_fx, sound_fx.ordinal x ≤ i_last_effects_track) ∧
    sound_fx.declarationList.getLast? = some sound_fx.S_VOICE_AFTERLIFE ∧
    sound_fx.ordinal sound_fx.S_VOICE_AFTERLIFE = i_last_effects_track ∧
    ¬ ∃ x : sound_fx, i_last_effects_track < sound_fx.ordinal x := by
  refine ⟨sound_fx.ordinal_le_marker, by rfl, rfl, ?_⟩
  rintro ⟨x, hx⟩
  have h := sound_fx.ordinal_le_marker x
  omega

/-- Claim C2: the ordinals of `sound_fx` have no duplicates and no gaps: the
ordinal mapping is injective, an integer is the ordinal of some identifier
exactly when it lies in `0..i_last_effects_track`, and every integer of that
range is the ordinal of exactly one identifier. -/
theorem ordinals_no_gaps_no_duplicates :
    Function.Injective sound_fx.ordinal ∧
    (∀ n : Int, (∃ x : sound_fx, sound_fx.ordinal x = n) ↔
      0 ≤ n ∧ n ≤ i_last_effects_track) ∧
    (∀ n : Int, 0 ≤ n → n ≤ i_last_effects_track →
      ∃! x : sound_fx, sound_fx.ordinal x = n) := by
  refine ⟨fun a b h => sound_fx.ordinal_inj h, ?_, ?_⟩
  · intro n
    constructor
    · rintro ⟨x, rfl⟩
      exact ⟨sound_fx.ordinal_nonneg x, sound_fx.ordinal_le_marker x⟩
    · rintro ⟨h0, h1⟩
      exact sound_fx.exists_ordinal_eq n h0 h1
  · intro n h0 h1
    obtain ⟨x, hx⟩ := sound_fx.exists_ordinal_eq n h0 h1
    exact ⟨x, hx, fun y hy => sound_fx.ordinal_inj (hy.trans hx.symm)⟩

/-- Claim C2 at the ordinal 33: exactly one identifier has it. -/
theorem ordinals_no_gaps_no_duplicates_witness :
    ∃! x : sound_fx, sound_fx.ordinal x = 33 :=
  ordinals_no_gaps_no_duplicates.2.2 33 (by decide) (by decide)

/-- Claim C3: the sentinel `S_EMPTY` has ordinal 0, which is the lowest ordinal
of the set: every ordinal is non-negative and at least that of `S_EMPTY`, and an
identifier has ordinal 0 exactly when it is `S_EMPTY`. -/
theorem empty_is_lowest_ordinal :
    sound_fx.ordinal sound_fx.S_EMPTY = 0 ∧
    (∀ x : sound_fx, 0 ≤ sound_fx.ordinal x) ∧
    (∀ x : sound_fx, sound_fx.ordinal sound_fx.S_EMPTY ≤ sound_fx.ordinal x) ∧
    (∀ x : sound_fx, sound_fx.ordinal x = 0 ↔ x = sound_fx.S_EMPTY) := by
  have h0 : sound_fx.ordinal sound_fx.S_EMPTY = 0 := by
    rw [sound_fx.ordinal_eq_declIndex]; rfl
  refine ⟨h0, sound_fx.ordinal_nonneg, ?_, ?_⟩
  · intro x
    rw [h0]
    exact sound_fx.ordinal_nonneg x
  · intro x
    constructor
    · intro h
      exact sound_fx.ordinal_inj (h.trans h0.symm)
    · intro h
      rw [h, h0]

/-- Claim C4: round trip between identifiers and ordinals: decoding is the
partial inverse of the ordinal mapping, decoding the ordinal of an identifier
gives that identifier back, and decoding any integer of
`0..i_last_effects_track` succeeds with an identifier whose ordinal is that
integer. -/
theorem ordinal_decode_round_trip :
    (∀ (n : Int) (x : sound_fx), decode n = some x ↔ sound_fx.ordinal x = n) ∧
    (∀ x : sound_fx, decode (sound_fx.ordinal x) = some x) ∧
    (∀ n : Int, 0 ≤ n → n ≤ i_last_effects_track →
      ∃ x : sound_fx, decode n = some x ∧ sound_fx.ordinal x = n) := by
  refine ⟨decode_eq_some_iff, ?_, ?_⟩
  · intro x
    exact (decode_eq_some_iff _ x).mpr rfl
  · intro n h0 h1
    obtain ⟨x, hx⟩ := sound_fx.exists_ordinal_eq n h0 h1
    exact ⟨x, (decode_eq_some_iff n x).mpr hx, hx⟩

/-- Claim C4 at the ordinal 27: decoding succeeds and encoding the result gives
27 again. -/
theorem ordinal_decode_round_trip_witness :
    ∃ x : sound_fx, decode 27 = some x ∧ sound_fx.ordinal x = 27 :=
  ordinal_decode_round_trip.2.2 27 (by decide) (by decide)

/-- Claim C5: the gain-adjustment iteration bounded by the marker is exhaustive
and non-repeating: `applyGainToAll` adjusts exactly the ascending sequence of
ordinals `1, 2, ..., i_last_effects_track`; that sequence is strictly ascending,
holds the ordinal of every identifier other than `S_EMPTY` exactly once, holds
only ordinals of defined identifiers, and never holds ordinal 0, the ordinal of
`S_EMPTY`. -/
theorem gain_iteration_exhaustive :
    (∀ level : Int, applyGainToAll level = effectOrdinals.map (fun n => (n, level))) ∧
    (∀ n : Int, n ∈ effectOrdinals ↔ 1 ≤ n ∧ n ≤ i_last_effects_track) ∧
    effectOrdinals.Pairwise (fun a b => a < b) ∧
    (∀ x : sound_fx, x ≠ sound_fx.S_EMPTY →
      effectOrdinals.count (sound_fx.ordinal x) = 1) ∧
    (∀ n ∈ effectOrdinals, ∃ x : sound_fx, x ≠ sound_fx.S_EMPTY ∧ sound_fx.ordinal x = n) ∧
    (0 : Int) ∉ effectOrdinals ∧
    sound_fx.ordinal sound_fx.S_EMPTY ∉ effectOrdinals := by
  have h0 : sound_fx.ordinal sound_fx.S_EMPTY = 0 := by
    rw [sound_fx.ordinal_eq_declIndex]; rfl
  have hz : (0 : Int) ∉ effectOrdinals := by
    intro h
    have := (mem_effectOrdinals 0).mp h
    omega
  refine ⟨applyGainToAll_eq, mem_effectOrdinals, effectOrdinals_pairwise, ?_, ?_, hz, ?_⟩
  · intro x hx
    apply List.count_eq_one_of_mem effectOrdinals_nodup
    rw [mem_effectOrdinals]
    refine ⟨?_, sound_fx.ordinal_le_marker x⟩
    have hn := sound_fx.ordinal_nonneg x
    have hne : sound_fx.ordinal x ≠ 0 := by
      intro h
      exact hx (sound_fx.ordinal_inj (h.trans h0.symm))
    omega
  · intro n hn
    have h := (mem_effectOrdinals n).mp hn
    obtain ⟨x, hx⟩ := sound_fx.exists_ordinal_eq n (by omega) h.2
    refine ⟨x, ?_, hx⟩
    intro hxe
    rw [hxe, h0] at hx
    omega
  · rw [h0]
    exact hz

/-- Claim C5 at `S_VOICE_AFTERLIFE`: its ordinal occurs exactly once in the
sequence of adjusted ordinals. -/
theorem gain_iteration_exhaustive_witness :
    effectOrdinals.count (sound_fx.ordinal sound_fx.S_VOICE_AFTERLIFE) = 1 :=
  gain_iteration_exhaustive.2.2.2.1 sound_fx.S_VOICE_AFTERLIFE (by decide)

/-- Claim C6: an identifier numerically equal to the marker plus one is
rejected: no member of `sound_fx` has ordinal `i_last_effects_track + 1`, nor any
ordinal above the marker or below 0, so decoding and validating such a value
fail with `InvalidIdentifier`, and so does `play`. -/
theorem identifier_past_marker_rejected :
    (∀ x : sound_fx, sound_fx.ordinal x ≠ i_last_effects_track + 1) ∧
    (∀ n : Int, n < 0 ∨ i_last_effects_track < n →
      ∀ x : sound_fx, sound_fx.ordinal x ≠ n) ∧
    decode (i_last_effects_track + 1) = none ∧
    validate (i_last_effects_track + 1) =
      Except.error SequencerError.InvalidIdentifier ∧
    (∀ mode : PlayMode, play (i_last_effects_track + 1) mode =
      Except.error SequencerError.InvalidIdentifier) ∧
    (∀ n : Int, n < 0 ∨ i_last_effects_track < n →
      decode n = none ∧
      validate n = Except.error SequencerError.InvalidIdentifier ∧
      ∀ mode : PlayMode, play n mode =
        Except.error SequencerError.InvalidIdentifier) := by
  have hgen : ∀ n : Int, n < 0 ∨ i_last_effects_track < n →
      decode n = none ∧
      validate n = Except.error SequencerError.InvalidIdentifier ∧
      ∀ mode : PlayMode, play n mode =
        Except.error SequencerError.InvalidIdentifier := by
    intro n hn
    have hd := decode_out_of_range n hn
    have hv : validate n = Except.error SequencerError.InvalidIdentifier := by
      unfold validate
      rw [hd]
    refine ⟨hd, hv, ?_⟩
    intro mode
    unfold play
    rw [hv]
  have hnext : (i_last_effects_track + 1 < 0) ∨
      i_last_effects_track < i_last_effects_track + 1 := Or.inr (by omega)
  refine ⟨?_, ?_, (hgen _ hnext).1, (hgen _ hnext).2.1, (hgen _ hnext).2.2, hgen⟩
  · intro x
    exact (decode_eq_none_iff _).mp (hgen _ hnext).1 x
  · intro n hn x
    exact (decode_eq_none_iff n).mp (hgen n hn).1 x

/-- Claim C6 at the value -1: it is below every ordinal, so decoding it fails. -/
theorem identifier_past_marker_rejected_witness : decode (-1) = none :=
  (identifier_past_marker_rejected.2.2.2.2.2 (-1) (Or.inl (by decide))).1

/-- Claim C7: ordering is insertion order: the ordinal of an identifier is its
zero-based position in the declaration list, so one identifier is declared
before another exactly when its ordinal is the smaller; the order is total and
does not follow the numeric suffixes of the names: `S_IDLE_LOOP_GUN_1` (33)
comes after `S_IDLE_LOOP_GUN_5` (32), and `S_AFTERLIFE_GUN_RAMP_DOWN_2` (27)
comes before `S_AFTERLIFE_GUN_RAMP_DOWN_1` (28). -/
theorem ordering_is_insertion_order :
    (∀ x : sound_fx, sound_fx.ordinal x = (sound_fx.declIndex x : Int)) ∧
    (∀ x : sound_fx, sound_fx.declarationList[sound_fx.declIndex x]? = some x) ∧
    (∀ a b : sound_fx, sound_fx.declaredBefore a b ↔
      sound_fx.ordinal a < sound_fx.ordinal b) ∧
    (∀ a b : sound_fx, sound_fx.ordinal a < sound_fx.ordinal b ∨ a = b ∨
      sound_fx.ordinal b < sound_fx.ordinal a) ∧
    sound_fx.ordinal sound_fx.S_IDLE_LOOP_GUN_5 = 32 ∧
    sound_fx.ordinal sound_fx.S_IDLE_LOOP_GUN_1 = 33 ∧
    sound_fx.declaredBefore sound_fx.S_IDLE_LOOP_GUN_5 sound_fx.S_IDLE_LOOP_GUN_1 ∧
    sound_fx.ordinal sound_fx.S_AFTERLIFE_GUN_RAMP_DOWN_2 = 27 ∧
    sound_fx.ordinal sound_fx.S_AFTERLIFE_GUN_RAMP_DOWN_1 = 28 ∧
    sound_fx.declaredBefore sound_fx.S_AFTERLIFE_GUN_RAMP_DOWN_2
      sound_fx.S_AFTERLIFE_GUN_RAMP_DOWN_1 := by
  refine ⟨sound_fx.ordinal_eq_declIndex, ?_, ?_, ?_, ?_, ?_, by decide, ?_, ?_, by decide⟩
  · intro x
    rw [← List.get?_eq_getElem?]
    exact List.indexOf_get? (sound_fx.mem_declarationList x)
  · intro a b
    unfold sound_fx.declaredBefore
    rw [sound_fx.ordinal_eq_declIndex, sound_fx.ordinal_eq_declIndex]
    exact Int.ofNat_lt.symm
  · intro a b
    rcases lt_trichotomy (sound_fx.ordinal a) (sound_fx.ordinal b) with h | h | h
    · exact Or.inl h
    · exact Or.inr (Or.inl (sound_fx.ordinal_inj h))
    · exact Or.inr (Or.inr h)
  · rw [sound_fx.ordinal_eq_declIndex]; rfl
  · rw [sound_fx.ordinal_eq_declIndex]; rfl
  · rw [sound_fx.ordinal_eq_declIndex]; rfl
  · rw [sound_fx.ordinal_eq_declIndex]; rfl

/-- Claim C8: the bound agrees with the size of the set: `sound_fx` has exactly
95 identifiers (the declaration list names every identifier once and has length
95, not 110), `i_last_effects_track` is 94, which is the number of identifiers
minus one, and exactly 94 identifiers differ from `S_EMPTY`. -/
theorem marker_consistent_with_size :
    sound_fx.declarationList.Nodup ∧
    (∀ x : sound_fx, x ∈ sound_fx.declarationList) ∧
    sound_fx.count = 95 ∧
    sound_fx.count ≠ 110 ∧
    i_last_effects_track = 94 ∧
    i_last_effects_track = (sound_fx.count : Int) - 1 ∧
    (sound_fx.declarationList.filter (fun x => decide (x ≠ sound_fx.S_EMPTY))).length = 94 := by
  refine ⟨sound_fx.nodup_declarationList, sound_fx.mem_declarationList, rfl, by decide,
    i_last_effects_track_eq, ?_, by rfl⟩
  rw [i_last_effects_track_eq]
  rfl

end NeutronaWand
